import Mathlib

/-!
Shallow embedding of the tile/result caching and concurrency-control core of
the gpura-gallery repository: the canvas geometry utilities
(`src/lib/canvas-utils.ts`), the request-coordinator logic inside the zustand
canvas store (`src/store/canvas-store.ts`), the tile API route
(`src/app/api/tiles/route.ts`) and the Omeka data adapter
(`OmekaAdapter.search` / `OmekaAdapter.fetchTile`).

JavaScript numbers are modelled as `Int`/`Nat` (all quantities the claims
touch are integral); JS `Map`s are modelled as association lists; the
cooperative (single-threaded, async/await) execution of the store is
modelled as a step function on an explicit state, where each synchronous
block between `await` points is one atomic step.
-/

/-! ## Canvas configuration (`src/config/site.ts`, `canvasConfig`) -/

def CARD_WIDTH : Int := 160
def CARD_HEIGHT : Int := 200
def CARD_GAP : Int := 24
def COLS_PER_TILE : Nat := 5
def ROWS_PER_TILE : Nat := 5
def ITEMS_PER_TILE : Nat := 25

/-- Tile pixel width, `COLS_PER_TILE * (CARD_WIDTH + CARD_GAP)` (canvas-utils). -/
def TILE_WIDTH : Int := (COLS_PER_TILE : Int) * (CARD_WIDTH + CARD_GAP)

/-- Tile pixel height, `ROWS_PER_TILE * (CARD_HEIGHT + CARD_GAP)` (canvas-utils). -/
def TILE_HEIGHT : Int := (ROWS_PER_TILE : Int) * (CARD_HEIGHT + CARD_GAP)

/-! ## Tile keys (`getTileKey` in canvas-utils) -/

/-- Embedding of `getTileKey(tileX, tileY, query?, filtersHash?)`:
returns `"tileX,tileY"`, with `":query:filtersHash"` appended when either
`query` or `filtersHash` is a non-empty (truthy) string. -/
def getTileKey (tileX tileY : Int) (query filtersHash : String) : String :=
  let base := toString tileX ++ "," ++ toString tileY
  if query ≠ "" ∨ filtersHash ≠ "" then
    base ++ ":" ++ query ++ ":" ++ filtersHash
  else
    base

/-! ## Filter objects and `hashFilters`

`hashFilters(filters)` in canvas-utils is `JSON.stringify(filters)` (or `""`
when `filters` is absent).  A JS object is serialised in property insertion
order, and arrays in element order, so a filter object is modelled as an
ordered list of (field name, value) pairs. -/

inductive FilterValue
  | arr (xs : List String)
  | num (n : Int)
  deriving DecidableEq, Repr

/-- Filter object: named fields in insertion order (JS object semantics). -/
def FilterObj := List (String × FilterValue)

instance : DecidableEq FilterObj := by
  unfold FilterObj
  infer_instance

/-- JSON string literal (plain values; no escaping needed for the
alphanumeric filter values used in this code base). -/
def jsonString (s : String) : String := "\"" ++ s ++ "\""

/-- JSON serialisation of a filter value, as `JSON.stringify` produces it. -/
def jsonValue : FilterValue → String
  | .arr xs => "[" ++ String.intercalate "," (xs.map jsonString) ++ "]"
  | .num n => toString n

/-- JSON serialisation of a filter object in insertion order, as
`JSON.stringify` produces it. -/
def jsonStringify (o : FilterObj) : String :=
  "\x7b" ++
    String.intercalate ","
      (o.map (fun f => jsonString f.1 ++ ":" ++ jsonValue f.2)) ++
    "\x7d"

/-- Embedding of `hashFilters(filters?)`: `""` for an absent filters object,
otherwise `JSON.stringify(filters)`. -/
def hashFilters : Option FilterObj → String
  | none => ""
  | some o => jsonStringify o

/-- Two filter values denote the same constraint: arrays with the same
elements in any order, or the same number. -/
def FilterValue.equiv : FilterValue → FilterValue → Prop
  | .arr xs, .arr ys => xs.Perm ys
  | .num a, .num b => a = b
  | .arr _, .num _ => False
  | .num _, .arr _ => False

instance : ∀ u v : FilterValue, Decidable (u.equiv v) := by
  intro u v
  cases u <;> cases v <;> unfold FilterValue.equiv <;> infer_instance

/-- Field `n` carries equivalent constraints in both objects: present in
both with equivalent values, or present in neither. -/
def lookupEquivAt (o₁ o₂ : FilterObj) (n : String) : Prop :=
  match o₁.lookup n, o₂.lookup n with
  | some v₁, some v₂ => v₁.equiv v₂
  | none, none => True
  | _, _ => False

instance (o₁ o₂ : FilterObj) (n : String) : Decidable (lookupEquivAt o₁ o₂ n) := by
  unfold lookupEquivAt
  rcases o₁.lookup n with _ | v₁ <;> rcases o₂.lookup n with _ | v₂ <;>
    simp only [] <;> infer_instance

/-- Two filter objects denote the same filter set: every field name occurring
in either object is present in both (in any construction order) with
equivalent values.  Fields are looked up by first occurrence, as in a JS
object. -/
def sameFilterSet (o₁ o₂ : FilterObj) : Prop :=
  ∀ n ∈ o₁.map Prod.fst ++ o₂.map Prod.fst, lookupEquivAt o₁ o₂ n

instance (o₁ o₂ : FilterObj) : Decidable (sameFilterSet o₁ o₂) := by
  unfold sameFilterSet
  infer_instance

/-! ## Deterministic placement (`getItemPosition` in canvas-utils)

Only the `{x, y, width, height}` bounding box is embedded; the `rotation`
output is computed with floating-point `Math.sin` and is irrelevant to the
placement-disjointness claim. -/

structure ItemBox where
  x : Int
  y : Int
  width : Int
  height : Int
  deriving DecidableEq, Repr

/-- Embedding of the bounding-box part of `getItemPosition(tileX, tileY,
index)`: grid cell `(index % COLS_PER_TILE, index / COLS_PER_TILE)` inside
the tile, shifted by half the gap. -/
def getItemPosition (tileX tileY : Int) (index : Nat) : ItemBox :=
  let baseX := tileX * TILE_WIDTH
  let baseY := tileY * TILE_HEIGHT
  let col := index % COLS_PER_TILE
  let row := index / COLS_PER_TILE
  { x := baseX + (col : Int) * (CARD_WIDTH + CARD_GAP) + CARD_GAP / 2
    y := baseY + (row : Int) * (CARD_HEIGHT + CARD_GAP) + CARD_GAP / 2
    width := CARD_WIDTH
    height := CARD_HEIGHT }

/-- Two axis-aligned boxes are disjoint: separated on the x axis or on the
y axis (closed boxes). -/
def boxesDisjoint (a b : ItemBox) : Prop :=
  a.x + a.width ≤ b.x ∨ b.x + b.width ≤ a.x ∨
  a.y + a.height ≤ b.y ∨ b.y + b.height ≤ a.y

instance (a b : ItemBox) : Decidable (boxesDisjoint a b) := by
  unfold boxesDisjoint
  infer_instance

/-! ## Association-list maps

JS `Map` objects (and the plain-object tile map held in zustand state) are
modelled as association lists with unique keys: `aset` replaces in place or
appends, `aerase` removes the entry for a key. -/

def alookup {α β : Type} [DecidableEq α] : List (α × β) → α → Option β
  | [], _ => none
  | (k', v) :: rest, k => if k' = k then some v else alookup rest k

def aset {α β : Type} [DecidableEq α] : List (α × β) → α → β → List (α × β)
  | [], k, v => [(k, v)]
  | (k', v') :: rest, k, v =>
    if k' = k then (k, v) :: rest else (k', v') :: aset rest k v

def aerase {α β : Type} [DecidableEq α] : List (α × β) → α → List (α × β)
  | [], _ => []
  | (k', v') :: rest, k => if k' = k then rest else (k', v') :: aerase rest k

/-! ## Request coordinator (`src/store/canvas-store.ts`)

The store's module-level concurrency state (`inFlightRequests`,
`activeRequestCount`, `requestQueue`) together with the zustand `tiles` map
is modelled as an explicit state.  Execution is cooperative: each
synchronous block between `await` points is one atomic step.  A `loadTile`
call runs synchronously to its `return` (including the synchronous prefix
of `doFetch` up to `await fetch` when the fetch starts immediately), so it
is one step; the continuation of `doFetch` after the awaited fetch
(success or failure write-back plus the `finally` block) is another step.
Tile item payloads are opaque (`Nat` ids); the `itemsToCanvasItems`
positioning applied to fetched items does not affect the coordinator
claims. -/

def CACHE_TTL : Nat := 30 * 60 * 1000

def MAX_CONCURRENT_REQUESTS : Int := 6

structure TileData where
  items : List Nat
  loading : Bool
  error : Option String
  timestamp : Nat
  deriving DecidableEq, Repr

/-- A `doFetch` closure instance, identified by a fresh id; `key` is the
tile key it was created for.  The promise created alongside it (resolved in
its `finally` block) shares its id. -/
structure FetchInst where
  id : Nat
  key : String
  deriving DecidableEq, Repr

inductive PromiseStatus
  | pending
  | resolved
  | rejected
  deriving DecidableEq, Repr

/-- What a single `loadTile` call returns to its caller. -/
inductive LoadResult
  | cachedReturn
  | joined (pid : Nat)
  | created (pid : Nat)
  deriving DecidableEq, Repr

structure CoordState where
  tiles : List (String × TileData)
  inFlight : List (String × Nat)
  activeRequestCount : Int
  requestQueue : List FetchInst
  running : List FetchInst
  promises : List (Nat × PromiseStatus)
  instancesCreated : List FetchInst
  fetchesStarted : List FetchInst
  loadResults : List LoadResult
  query : String
  filters : FilterObj
  nextId : Nat
  now : Nat
  deriving DecidableEq

def initCoordState : CoordState :=
  { tiles := [], inFlight := [], activeRequestCount := 0, requestQueue := []
    running := [], promises := [], instancesCreated := [], fetchesStarted := []
    loadResults := [], query := "", filters := [], nextId := 0, now := 0 }

/-- Cache entry written by the synchronous prefix of `doFetch`:
`{ items: [], loading: true, timestamp: Date.now() }`. -/
def loadingEntry (now : Nat) : TileData :=
  { items := [], loading := true, error := none, timestamp := now }

/-- Synchronous prefix of a `doFetch` body: writes the loading entry and
suspends at `await fetch`; the instance is now running and the network
fetch has been issued (logged in `fetchesStarted`). -/
def startInst (s : CoordState) (inst : FetchInst) : CoordState :=
  { s with tiles := aset s.tiles inst.key (loadingEntry s.now)
           running := s.running ++ [inst]
           fetchesStarted := s.fetchesStarted ++ [inst] }

/-- One iteration bound of the `processQueue` while loop (each iteration
shifts one entry, so the queue length bounds the iteration count). -/
def drainQueue : Nat → CoordState → CoordState
  | 0, s => s
  | fuel + 1, s =>
    if s.activeRequestCount < MAX_CONCURRENT_REQUESTS then
      match s.requestQueue with
      | [] => s
      | inst :: rest =>
        drainQueue fuel
          (startInst
            { s with requestQueue := rest
                     activeRequestCount := s.activeRequestCount + 1 } inst)
    else s

/-- Embedding of `processQueue()`: start queued fetches while below the
concurrency limit. -/
def processQueue (s : CoordState) : CoordState :=
  drainQueue s.requestQueue.length s

/-- Embedding of one `loadTile(tileX, tileY)` call as an atomic step (the
function never awaits before returning).  Mirrors, in order: the
fresh/loading cache check, the in-flight map check, then creation of the
fetch promise, immediate start or FIFO enqueue depending on
`activeRequestCount`, and registration in `inFlightRequests`. -/
def loadTileStep (s : CoordState) (tileX tileY : Int) : CoordState :=
  let key := getTileKey tileX tileY s.query (hashFilters (some s.filters))
  let hitCache :=
    match alookup s.tiles key with
    | some td =>
      td.loading || (decide (td.items ≠ []) && decide (s.now - td.timestamp < CACHE_TTL))
    | none => false
  if hitCache then
    { s with loadResults := s.loadResults ++ [.cachedReturn] }
  else
    match alookup s.inFlight key with
    | some pid => { s with loadResults := s.loadResults ++ [.joined pid] }
    | none =>
      let pid := s.nextId
      let inst : FetchInst := { id := pid, key := key }
      let s₁ :=
        { s with promises := aset s.promises pid .pending
                 instancesCreated := s.instancesCreated ++ [inst]
                 inFlight := aset s.inFlight key pid
                 nextId := s.nextId + 1 }
      if s.activeRequestCount < MAX_CONCURRENT_REQUESTS then
        let s₂ := startInst { s₁ with activeRequestCount := s₁.activeRequestCount + 1 } inst
        { s₂ with loadResults := s₂.loadResults ++ [.created pid] }
      else
        { s₁ with requestQueue := s₁.requestQueue ++ [inst]
                  loadResults := s₁.loadResults ++ [.created pid] }

inductive FetchOutcome
  | ok (items : List Nat)
  | error (msg : String)
  deriving DecidableEq, Repr

def findInst : List FetchInst → Nat → Option FetchInst
  | [], _ => none
  | i :: rest, fid => if i.id = fid then some i else findInst rest fid

def removeInst : List FetchInst → Nat → List FetchInst
  | [], _ => []
  | i :: rest, fid => if i.id = fid then rest else i :: removeInst rest fid

/-- Embedding of the continuation of a running `doFetch` once its awaited
fetch settles: the success write-back (or the catch-block failure
write-back), then the `finally` block — decrement the active counter,
remove the in-flight marker, `processQueue()`, resolve the outer promise.
A `fid` that is not running steps to the same state (no such
continuation is pending). -/
def completeStep (s : CoordState) (fid : Nat) (outcome : FetchOutcome) :
    CoordState :=
  match findInst s.running fid with
  | none => s
  | some inst =>
    let entry : TileData :=
      match outcome with
      | .ok items => { items := items, loading := false, error := none, timestamp := s.now }
      | .error msg =>
        { items := [], loading := false, error := some msg, timestamp := s.now }
    let s₁ := { s with tiles := aset s.tiles inst.key entry
                       running := removeInst s.running fid }
    let s₂ := { s₁ with activeRequestCount := s₁.activeRequestCount - 1
                        inFlight := aerase s₁.inFlight inst.key }
    let s₃ := processQueue s₂
    { s₃ with promises := aset s₃.promises inst.id .resolved }

/-- Embedding of `clearTiles()`: clear the in-flight map, drop the pending
queue, reset the active counter, empty the tile map.  Running fetch bodies
are not cancelled. -/
def clearTilesStep (s : CoordState) : CoordState :=
  { s with inFlight := [], requestQueue := [], activeRequestCount := 0, tiles := [] }

inductive CoordEvent
  | load (tileX tileY : Int)
  | complete (fid : Nat) (outcome : FetchOutcome)
  | clear
  | tick (d : Nat)
  deriving DecidableEq

def coordStep (s : CoordState) : CoordEvent → CoordState
  | .load tx ty => loadTileStep s tx ty
  | .complete fid outcome => completeStep s fid outcome
  | .clear => clearTilesStep s
  | .tick d => { s with now := s.now + d }

def coordRun' (s : CoordState) : List CoordEvent → CoordState
  | [] => s
  | e :: es => coordRun' (coordStep s e) es

def coordRun (es : List CoordEvent) : CoordState :=
  coordRun' initCoordState es

def createdKeys (s : CoordState) : List String := s.instancesCreated.map FetchInst.key

def startedKeys (s : CoordState) : List String := s.fetchesStarted.map FetchInst.key

/-- The tile key a `load` event resolves to in a run whose query and
filters are those of the initial state. -/
def initTileKey (tileX tileY : Int) : String :=
  getTileKey tileX tileY initCoordState.query (hashFilters (some initCoordState.filters))

/-- Promise handle a `loadTile` result exposes, when it exposes one. -/
def LoadResult.handleOf : LoadResult → Option Nat
  | .cachedReturn => none
  | .joined p => some p
  | .created p => some p

/-- All results expose a handle to one single shared promise. -/
def resultsShareOnePromise (l : List LoadResult) : Prop :=
  (∀ r ∈ l, r.handleOf.isSome = true) ∧
  l.Pairwise (fun a b => a.handleOf = b.handleOf)

instance (l : List LoadResult) : Decidable (resultsShareOnePromise l) := by
  unfold resultsShareOnePromise
  infer_instance

/-- A schedule with no `clear` event. -/
def NoClear (es : List CoordEvent) : Prop := ∀ e ∈ es, e ≠ CoordEvent.clear

instance (es : List CoordEvent) : Decidable (NoClear es) := by
  unfold NoClear
  infer_instance

/-! ## Tile API route (`src/app/api/tiles/route.ts`)

The route holds a module-level tile cache and a set of pending background
revalidations.  A `GET` runs synchronously through parameter handling and
the cache decision; on the fresh and stale branches it returns without
awaiting (the background revalidation's synchronous prefix — the duplicate
guard and marker insertion — runs before its first `await`, so it is part
of the same atomic step).  On the miss branch the handler awaits the
adapter; its outcome is passed as a parameter and the miss branch is taken
as one step (no claim interleaves inside a miss).  A started revalidation
deterministically performs exactly one `adapter.fetchTile` call, so
revalidations are counted at start. -/

def ROUTE_CACHE_TTL : Nat := 30 * 60 * 1000

def ROUTE_STALE_TTL : Nat := 60 * 60 * 1000

structure TileResponseM where
  tileX : Int
  tileY : Int
  items : List Nat
  deriving DecidableEq, Repr

/-- Query parameters of a tile `GET` after the route's parsing/validation
(`tx`/`ty` parsed, `q` and `filters` read, `limit` defaulted).  The `seed`
query parameter sent by the client is not read anywhere in the route, so it
does not appear here; see `routeTileRequest`. -/
structure RouteReq where
  tileX : Int
  tileY : Int
  q : Option String
  filtersParam : Option String
  limit : Nat
  deriving DecidableEq, Repr

/-- Cache key built by the route:
`` `${tileX},${tileY}:${q || ""}:${filtersParam || ""}` ``. -/
def routeCacheKey (tileX tileY : Int) (q filtersParam : Option String) : String :=
  toString tileX ++ "," ++ toString tileY ++ ":" ++ q.getD "" ++ ":" ++ filtersParam.getD ""

structure RouteState where
  tileCache : List (String × (TileResponseM × Nat))
  pendingRevalidations : List String
  revalFetches : List String
  now : Nat
  deriving DecidableEq

inductive RouteResp
  | hit (data : TileResponseM)
  | stale (data : TileResponseM)
  | miss (data : TileResponseM)
  | error500
  deriving DecidableEq, Repr

/-- Synchronous prefix of `revalidateTileInBackground`: return if a
revalidation for this key is already pending, otherwise mark it pending;
the started revalidation performs one adapter fetch (logged here). -/
def revalidateStart (s : RouteState) (cacheKey : String) : RouteState :=
  if cacheKey ∈ s.pendingRevalidations then s
  else
    { s with pendingRevalidations := cacheKey :: s.pendingRevalidations
             revalFetches := s.revalFetches ++ [cacheKey] }

/-- Completion of a pending background revalidation: on success the cache
entry is rewritten with a fresh timestamp, on failure only logged; either
way the `finally` block removes the pending marker. -/
def revalidateComplete (s : RouteState) (cacheKey : String)
    (outcome : Option TileResponseM) : RouteState :=
  if cacheKey ∈ s.pendingRevalidations then
    match outcome with
    | some resp =>
      { s with tileCache := aset s.tileCache cacheKey (resp, s.now)
               pendingRevalidations := s.pendingRevalidations.erase cacheKey }
    | none =>
      { s with pendingRevalidations := s.pendingRevalidations.erase cacheKey }
  else s

/-- Cache sweep run on writes once the map exceeds 500 entries: drop
entries older than the stale TTL. -/
def sweepCache (l : List (String × (TileResponseM × Nat))) (now : Nat) :
    List (String × (TileResponseM × Nat)) :=
  l.filter (fun e => !(decide (now - e.2.2 > ROUTE_STALE_TTL)))

/-- Miss branch of the route `GET`: fetch from the adapter (outcome passed
in), store, opportunistically sweep, answer `X-Cache: MISS`; an adapter
throw is caught by the handler's outer try/catch and answered as a 500. -/
def routeMiss (s : RouteState) (req : RouteReq) (cacheKey : String)
    (adapterOutcome : FetchOutcome) : RouteState × RouteResp :=
  match adapterOutcome with
  | .error _ => (s, .error500)
  | .ok items =>
    let resp : TileResponseM := { tileX := req.tileX, tileY := req.tileY, items := items }
    let cache1 := aset s.tileCache cacheKey (resp, s.now)
    let cache2 := if cache1.length > 500 then sweepCache cache1 s.now else cache1
    ({ s with tileCache := cache2 }, .miss resp)

/-- Embedding of the route `GET` cache decision: fresh hit (< fresh TTL),
stale hit (serve stale, fire one background revalidation), otherwise miss.
`adapterOutcome` is consulted only on the miss branch. -/
def routeGET (s : RouteState) (req : RouteReq) (adapterOutcome : FetchOutcome) :
    RouteState × RouteResp :=
  let cacheKey := routeCacheKey req.tileX req.tileY req.q req.filtersParam
  match alookup s.tileCache cacheKey with
  | some (data, ts) =>
    let age := s.now - ts
    if age < ROUTE_CACHE_TTL then (s, .hit data)
    else if age < ROUTE_STALE_TTL then (revalidateStart s cacheKey, .stale data)
    else routeMiss s req cacheKey adapterOutcome
  | none => routeMiss s req cacheKey adapterOutcome

/-- Iterated `GET`s for the same request with no other steps interleaved. -/
def routeGETs (req : RouteReq) (adapterOutcome : FetchOutcome) :
    Nat → RouteState → RouteState × List RouteResp
  | 0, s => (s, [])
  | n + 1, s =>
    let p := routeGET s req adapterOutcome
    let rest := routeGETs req adapterOutcome n p.1
    (rest.1, p.2 :: rest.2)

/-! ## Omeka adapter (`OmekaAdapter` in `src/lib/preload.ts`)

An `ArchiveItem` is modelled with exactly the fields the adapter's filter
and thumbnail logic inspects.  `hasMedia` records whether the raw Omeka
item found for this id (`rawItems.find` by `o:id`) has a non-empty
`o:media` list.  `thumbnailUrl = none` models JS `null`/absent. -/

structure OItem where
  id : String
  year : Option Int
  language : Option String
  itemType : Option String
  collection : Option String
  thumbnailUrl : Option String
  hasMedia : Bool
  deriving DecidableEq, Repr

structure SearchFiltersM where
  languages : Option (List String)
  types : Option (List String)
  collections : Option (List String)
  periods : Option (List String)
  yearMin : Option Int
  yearMax : Option Int
  deriving DecidableEq, Repr

/-- The filters object with every field absent. -/
def emptyFiltersM : SearchFiltersM :=
  { languages := none, types := none, collections := none, periods := none
    yearMin := none, yearMax := none }

/-- Predefined time ranges (`TIME_RANGES` in `src/lib/types.ts`):
label, min year, max year, with `none` for an open end. -/
def TIME_RANGES : List (String × Option Int × Option Int) :=
  [("Before 1900", none, some 1899),
   ("1900–1947", some 1900, some 1947),
   ("1947–1975", some 1948, some 1975),
   ("1975–2000", some 1976, some 2000),
   ("After 2000", some 2001, none)]

def takeDigits : List Char → List Char × List Char
  | [] => ([], [])
  | c :: rest =>
    if c.isDigit then
      let p := takeDigits rest
      (c :: p.1, p.2)
    else ([], c :: rest)

def dropSpaces : List Char → List Char
  | [] => []
  | c :: rest => if c.isWhitespace then dropSpaces rest else c :: rest

def digitsToInt (ds : List Char) : Int :=
  ((ds.foldl (fun acc c => acc * 10 + (c.toNat - 48)) 0 : Nat) : Int)

def isDashChar (c : Char) : Bool := c = '–' || c = '-'

/-- Label-to-range resolution used by both filter paths: look the label up
in `TIME_RANGES`, else match the custom-range regex
`^(\d\x7b3,4\x7d)\s*[–-]\s*(\d\x7b3,4\x7d)$`, else the single-year regex
`^(\d\x7b3,4\x7d)$`, else drop the label. -/
def parsePeriodLabel (label : String) : Option (Option Int × Option Int) :=
  match TIME_RANGES.lookup label with
  | some r => some r
  | none =>
    let p1 := takeDigits label.toList
    if 3 ≤ p1.1.length ∧ p1.1.length ≤ 4 then
      match p1.2 with
      | [] => some (some (digitsToInt p1.1), some (digitsToInt p1.1))
      | _ :: _ =>
        match dropSpaces p1.2 with
        | [] => none
        | c :: r3 =>
          if isDashChar c then
            let r4 := dropSpaces r3
            let p2 := takeDigits r4
            if (3 ≤ p2.1.length ∧ p2.1.length ≤ 4) ∧ p2.2 = [] then
              some (some (digitsToInt p1.1), some (digitsToInt p2.1))
            else none
          else none
    else none

/-- Year lies in a range, open ends treated as ±Infinity
(`range.min ?? -Infinity`, `range.max ?? Infinity`). -/
def inRange (year : Int) (r : Option Int × Option Int) : Bool :=
  (match r.1 with
   | some m => decide (m ≤ year)
   | none => true) &&
  (match r.2 with
   | some m => decide (year ≤ m)
   | none => true)

def filterYearMin (v : Option Int) (items : List OItem) : List OItem :=
  match v with
  | none => items
  | some m =>
    items.filter (fun it =>
      match it.year with
      | some y => decide (m ≤ y)
      | none => false)

def filterYearMax (v : Option Int) (items : List OItem) : List OItem :=
  match v with
  | none => items
  | some m =>
    items.filter (fun it =>
      match it.year with
      | some y => decide (y ≤ m)
      | none => false)

/-- Multi-select periods filter: resolve each label, drop unparsable ones,
and filter only when at least one range resolved. -/
def filterPeriods (v : Option (List String)) (items : List OItem) : List OItem :=
  match v with
  | none => items
  | some labels =>
    if labels.length > 0 then
      let ranges := (labels.map parsePeriodLabel).filterMap id
      if ranges.length > 0 then
        items.filter (fun it =>
          match it.year with
          | none => false
          | some y => ranges.any (inRange y))
      else items
    else items

/-- Collection filter: `item.collection && collections.includes(...)`; an
empty-string collection is falsy in JS. -/
def filterCollections (v : Option (List String)) (items : List OItem) : List OItem :=
  match v with
  | none => items
  | some cs =>
    if cs.length > 0 then
      items.filter (fun it =>
        match it.collection with
        | some c => decide (c ≠ "") && cs.contains c
        | none => false)
    else items

def filterLanguages (v : Option (List String)) (items : List OItem) : List OItem :=
  match v with
  | none => items
  | some ls =>
    if ls.length > 0 then
      items.filter (fun it =>
        match it.language with
        | some l => decide (l ≠ "") && ls.contains l
        | none => false)
    else items

def filterTypes (v : Option (List String)) (items : List OItem) : List OItem :=
  match v with
  | none => items
  | some ts =>
    if ts.length > 0 then
      items.filter (fun it =>
        match it.itemType with
        | some t => decide (t ≠ "") && ts.contains t
        | none => false)
    else items

/-- Client-side filter chain applied by `OmekaAdapter.search` (in source
order: yearMin, yearMax, periods, collections). -/
def applySearchFilters (filters : Option SearchFiltersM) (items : List OItem) :
    List OItem :=
  match filters with
  | none => items
  | some f =>
    filterCollections f.collections
      (filterPeriods f.periods
        (filterYearMax f.yearMax
          (filterYearMin f.yearMin items)))

/-- Condition `hasClientSideFilters` in `OmekaAdapter.search`. -/
def hasClientSideFilters (filters : Option SearchFiltersM) : Bool :=
  match filters with
  | none => false
  | some f =>
    f.yearMin.isSome || f.yearMax.isSome ||
    (match f.periods with
     | some ps => decide (ps.length > 0)
     | none => false) ||
    (match f.collections with
     | some cs => decide (cs.length > 0)
     | none => false)

/-- The estimate branch `Math.round(totalResults * filterRatio)`, modelled
in exact arithmetic (round half up on the exact rational; JS computes in
binary floating point — no claim exercises this branch's value). -/
def roundRatioEstimate (totalResults : Int) (filtered transformed : Nat) : Int :=
  (2 * totalResults * (filtered : Int) + (transformed : Int)) / (2 * (transformed : Int))

/-- Embedding of the `total` computed by `OmekaAdapter.search`:
`totalResults` untouched without client-side filters or with an empty page
sample; `-1` when the sample is non-empty but nothing on it matched;
otherwise the scaled estimate. -/
def searchTotal (filters : Option SearchFiltersM) (transformedItems : List OItem)
    (totalResults : Int) : Int :=
  let filteredItems := applySearchFilters filters transformedItems
  if hasClientSideFilters filters && decide (transformedItems.length > 0) then
    if filteredItems.length = 0 then -1
    else roundRatioEstimate totalResults filteredItems.length transformedItems.length
  else totalResults

/-! ## `OmekaAdapter.fetchTile` -/

def PRIME_X : Int := 7

def PRIME_Y : Int := 11

def MAX_PAGES : Int := 100

def MAX_THUMBNAIL_FETCHES : Nat := 15

/-- Positive tile-coordinate folding:
`Math.abs(t) + (t < 0 ? 100 : 0)`. -/
def tileAbs (t : Int) : Int := |t| + (if t < 0 then 100 else 0)

/-- Upstream page chosen by `fetchTile`:
`((absX * PRIME_X + absY * PRIME_Y + seed) % MAX_PAGES) + 1` (operands are
non-negative, so JS `%` agrees with `Int.emod`). -/
def fetchTilePage (tileX tileY : Int) (seed : Int) : Int :=
  (tileAbs tileX * PRIME_X + tileAbs tileY * PRIME_Y + seed) % MAX_PAGES + 1

def charsHavePrefix : List Char → List Char → Bool
  | [], _ => true
  | _ :: _, [] => false
  | n :: ns, h :: hs => decide (n = h) && charsHavePrefix ns hs

def charsContain : List Char → List Char → Bool
  | [], needle => decide (needle = [])
  | h :: rest, needle => charsHavePrefix needle (h :: rest) || charsContain rest needle

/-- JS `String.prototype.trim`: strip leading and trailing whitespace
(implemented over the character list so that it evaluates by kernel
reduction; `Char.isWhitespace` agrees with the JS whitespace class on the
ASCII characters at issue). -/
def jsTrim (s : String) : String :=
  String.mk ((dropSpaces ((dropSpaces s.toList).reverse)).reverse)

/-- Embedding of `isPlaceholderThumbnail(url)`; `Char.toLower` agrees with
JS `toLowerCase` on the ASCII patterns tested. -/
def isPlaceholderThumbnail (url : String) : Bool :=
  let lowerUrl := url.toList.map Char.toLower
  charsContain lowerUrl "/application/".toList || charsContain lowerUrl "/asset/".toList ||
  charsContain lowerUrl "default".toList || charsContain lowerUrl "placeholder".toList ||
  charsContain lowerUrl "fallback".toList ||
  charsHavePrefix ".svg".toList.reverse lowerUrl.reverse

/-- The guard `!item.thumbnailUrl || item.thumbnailUrl.trim().length === 0`. -/
def thumbMissing (it : OItem) : Bool :=
  match it.thumbnailUrl with
  | none => true
  | some u => decide (u = "") || decide (jsTrim u = "")

def thumbPlaceholder (it : OItem) : Bool :=
  match it.thumbnailUrl with
  | none => false
  | some u => isPlaceholderThumbnail u

/-- Whether an item is pushed onto `itemsNeedingThumbnails`. -/
def needsThumb (it : OItem) : Bool :=
  (thumbMissing it && it.hasMedia) ||
  (!thumbMissing it && thumbPlaceholder it && it.hasMedia)

/-- Per-item effect of the thumbnail repair phases, given how many
thumbnail-needing items precede this one.  `resolveThumb` abstracts the
awaited `fetchMediaThumbnail` chain for an item's media (the first
non-null result, or `none` for JS `null`). -/
def repairOne (resolveThumb : String → Option String) (seenNeeded : Nat)
    (it : OItem) : OItem :=
  if thumbMissing it then
    if it.hasMedia then
      if seenNeeded < MAX_THUMBNAIL_FETCHES then
        { it with thumbnailUrl := resolveThumb it.id }
      else it
    else it
  else if thumbPlaceholder it then
    if it.hasMedia then
      if seenNeeded < MAX_THUMBNAIL_FETCHES then
        { it with thumbnailUrl := resolveThumb it.id }
      else { it with thumbnailUrl := none }
    else { it with thumbnailUrl := none }
  else it

/-- Thumbnail repair over the item list: the first
`MAX_THUMBNAIL_FETCHES` items needing a thumbnail get the resolved one
(or `null`); later placeholder-bearing ones are cleared; items without a
resolvable source keep their (missing) thumbnail. -/
def repairThumbnails (resolveThumb : String → Option String) :
    Nat → List OItem → List OItem
  | _, [] => []
  | seen, it :: rest =>
    repairOne resolveThumb seen it ::
      repairThumbnails resolveThumb (if needsThumb it then seen + 1 else seen) rest

/-- Final keep test `item.thumbnailUrl && item.thumbnailUrl.trim().length > 0`. -/
def thumbKeep (it : OItem) : Bool :=
  match it.thumbnailUrl with
  | some u => decide (u ≠ "") && decide (jsTrim u ≠ "")
  | none => false

/-- Linear-congruential step `(s * 1103515245 + 12345) & 0x7fffffff`,
modelled as the exact non-negative residue mod `2^31` (JS applies the mask
after float arithmetic; the claims proved here are insensitive to the
index stream the generator produces). -/
def rngNext (s : Int) : Int := (s * 1103515245 + 12345) % (2 ^ 31)

def swapAt {α : Type} (l : List α) (i j : Nat) : List α :=
  match l.get? i, l.get? j with
  | some a, some b => (l.set i b).set j a
  | _, _ => l

/-- Fisher–Yates loop of `shuffleWithSeed`, indexed by the current JS loop
index `i` (from `length - 1` down to `1`). -/
def shuffleGo {α : Type} : Nat → Int → List α → List α
  | 0, _, l => l
  | i + 1, s, l =>
    let s' := rngNext s
    let j := s'.toNat % (i + 2)
    shuffleGo i s' (swapAt l (i + 1) j)

def shuffleWithSeed {α : Type} (l : List α) (seed : Int) : List α :=
  shuffleGo (l.length - 1) seed l

/-- Tile filter chain applied by `fetchTile` (in source order: languages,
types, yearMin, yearMax, periods, collections). -/
def applyTileFilters (filters : Option SearchFiltersM) (items : List OItem) :
    List OItem :=
  match filters with
  | none => items
  | some f =>
    filterCollections f.collections
      (filterPeriods f.periods
        (filterYearMax f.yearMax
          (filterYearMin f.yearMin
            (filterTypes f.types
              (filterLanguages f.languages items)))))

structure TileRequestM where
  tileX : Int
  tileY : Int
  q : Option String
  filters : Option SearchFiltersM
  limit : Nat
  seed : Option Int
  deriving DecidableEq, Repr

inductive UpstreamItems
  | ok (items : List OItem)
  | error (msg : String)
  deriving DecidableEq

/-- Embedding of `OmekaAdapter.fetchTile`: on upstream failure return `[]`;
otherwise filter client-side, repair thumbnails, drop items without a
usable thumbnail, shuffle with the tile seed, and return at most
`req.limit` items.  `upstream` is the outcome of the awaited `fetchItems`
call (the page selection feeding that call is `fetchTilePage`). -/
def fetchTileM (req : TileRequestM) (upstream : UpstreamItems)
    (resolveThumb : String → Option String) : List OItem :=
  match upstream with
  | .error _ => []
  | .ok items =>
    let filtered := applyTileFilters req.filters items
    let repaired := repairThumbnails resolveThumb 0 filtered
    let withThumbs := repaired.filter thumbKeep
    let seed := req.seed.getD 0
    let tileSeed := tileAbs req.tileX * 1000 + tileAbs req.tileY + seed
    (shuffleWithSeed withThumbs tileSeed).take req.limit

/-! ## Session seed pipeline (client request → route → adapter) -/

/-- Query parameters built by `loadTile` for its `/api/tiles` request:
`tx`, `ty`, `limit`, `seed` (the module-level `sessionSeed`), plus `q` and
`filters` when truthy/non-empty. -/
structure ClientTileParams where
  tx : Int
  ty : Int
  limit : Nat
  seed : Nat
  q : Option String
  filters : Option String
  deriving DecidableEq, Repr

def clientTileParams (tileX tileY : Int) (sessionSeed : Nat) (query : String)
    (filters : FilterObj) : ClientTileParams :=
  { tx := tileX, ty := tileY, limit := ITEMS_PER_TILE, seed := sessionSeed
    q := if query ≠ "" then some query else none
    filters := if filters.length > 0 then some (jsonStringify filters) else none }

/-- The route request the `GET` handler derives from the URL parameters:
it reads `tx`, `ty`, `q`, `limit` and `filters` — and nothing else, so the
client's `seed` parameter is dropped here. -/
def routeReqOf (p : ClientTileParams) : RouteReq :=
  { tileX := p.tx, tileY := p.ty, q := p.q, filtersParam := p.filters, limit := p.limit }

/-- The `TileRequest` object the route passes to `adapter.fetchTile`
(`\x7b tileX, tileY, q, filters, limit \x7d` — no `seed` property). -/
def routeTileRequest (r : RouteReq) (parsedFilters : Option SearchFiltersM) :
    TileRequestM :=
  { tileX := r.tileX, tileY := r.tileY, q := r.q, filters := parsedFilters
    limit := r.limit, seed := none }

/-- The upstream page `fetchTile` computes for a request, after its
`req.seed || 0` defaulting. -/
def upstreamPageOf (req : TileRequestM) : Int :=
  fetchTilePage req.tileX req.tileY (req.seed.getD 0)

/-! ## Invariants and fixtures used by the verification -/

/-- The tile key `loadTile` computes in state `s`. -/
def coordKey (s : CoordState) (tileX tileY : Int) : String :=
  getTileKey tileX tileY s.query (hashFilters (some s.filters))

/-- Schedule consisting only of `loadTile` calls. -/
def loadsOf (ps : List (Int × Int)) : List CoordEvent :=
  ps.map (fun p => CoordEvent.load p.1 p.2)

/-- Invariant of states reachable by `loadTile` calls alone: created fetch
instances have pairwise distinct keys (at most one instance per key), the
started fetches form a sub-sequence of the created instances, the in-flight
map marks exactly the created keys, and every cache entry belongs to a
created key. -/
def CoordLoadOnlyInv (s : CoordState) : Prop :=
  (createdKeys s).Nodup ∧
  s.fetchesStarted.Sublist s.instancesCreated ∧
  (∀ k, (alookup s.inFlight k).isSome = true ↔ k ∈ createdKeys s) ∧
  (∀ k td, alookup s.tiles k = some td → k ∈ createdKeys s)

/-- Invariant of states reachable without `clearTiles`: the active counter
counts exactly the running fetch bodies and never exceeds the limit; ids
are bounded by the fresh counter; queued instances are pairwise distinct,
never started, and carry keys distinct from every other waiting or running
instance, each of which holds an in-flight marker. -/
def CoordNoClearInv (s : CoordState) : Prop :=
  (s.activeRequestCount = (s.running.length : Int)) ∧
  (s.running.length ≤ 6) ∧
  (∀ i ∈ s.requestQueue, i.id < s.nextId) ∧
  (∀ i ∈ s.running, i.id < s.nextId) ∧
  (∀ i ∈ s.fetchesStarted, i.id < s.nextId) ∧
  ((s.requestQueue.map FetchInst.id).Nodup) ∧
  (∀ i ∈ s.requestQueue, i.id ∉ s.fetchesStarted.map FetchInst.id) ∧
  (((s.running ++ s.requestQueue).map FetchInst.key).Nodup) ∧
  (∀ i ∈ s.running ++ s.requestQueue, (alookup s.inFlight i.key).isSome = true)

/-- Sample archive item with a usable thumbnail. -/
def itemWithThumb : OItem :=
  { id := "1", year := some 1920, language := some "ml", itemType := some "book"
    collection := some "y", thumbnailUrl := some "https://x.org/files/large/1.jpg"
    hasMedia := false }

/-- Sample archive item without a thumbnail. -/
def itemNoThumb : OItem :=
  { id := "2", year := none, language := none, itemType := none
    collection := none, thumbnailUrl := none, hasMedia := false }

def tileReqW : TileRequestM :=
  { tileX := 0, tileY := 0, q := none, filters := none, limit := 25, seed := none }

/-- Filters with only the `collections` multi-select set. -/
def collectionsOnlyFilters : SearchFiltersM :=
  { emptyFiltersM with collections := some ["x"] }

/-- Route state holding one entry whose age is exactly the fresh TTL:
inside the stale window. -/
def staleRouteState : RouteState :=
  { tileCache := [(routeCacheKey 0 0 none none, ({ tileX := 0, tileY := 0, items := [1] }, 0))]
    pendingRevalidations := [], revalFetches := [], now := ROUTE_CACHE_TTL }

def routeReqW : RouteReq :=
  { tileX := 0, tileY := 0, q := none, filtersParam := none, limit := 25 }

/-! # Theorems -/

theorem alookup_aset {α β : Type} [DecidableEq α] (l : List (α × β)) (k k' : α) (v : β) :
    alookup (aset l k v) k' = if k = k' then some v else alookup l k' := by
  induction l with
  | nil => simp [aset, alookup]
  | cons hd tl ih =>
    rcases hd with ⟨a, b⟩
    by_cases hak : a = k
    · subst hak
      by_cases hk' : a = k'
      · subst hk'
        simp [aset, alookup]
      · simp [aset, alookup, hk']
    · by_cases hk' : a = k'
      · subst hk'
        have hka : ¬ k = a := fun h => hak h.symm
        simp [aset, alookup, hak, hka]
      · simp [aset, alookup, hak, hk', ih]

theorem alookup_aerase_ne {α β : Type} [DecidableEq α] (l : List (α × β)) (k k' : α)
    (h : ¬ k' = k) : alookup (aerase l k) k' = alookup l k' := by
  induction l with
  | nil => simp [aerase]
  | cons hd tl ih =>
    rcases hd with ⟨a, b⟩
    by_cases hak : a = k
    · subst hak
      have : ¬ a = k' := fun hh => h (hh.symm)
      simp [aerase, alookup, this]
    · by_cases hk' : a = k'
      · subst hk'
        simp [aerase, alookup, hak]
      · simp [aerase, alookup, hak, hk', ih]

/-! ## C9: placement disjointness -/

/-- C9: for every tile coordinate and every pair of distinct indices in the
full 5×5 grid, the bounding boxes returned by `getItemPosition` are
disjoint. -/
theorem getItemPosition_no_overlap (tileX tileY : Int) (i j : Nat)
    (hi : i < 25) (hj : j < 25) (hij : i ≠ j) :
    boxesDisjoint (getItemPosition tileX tileY i) (getItemPosition tileX tileY j) := by
  simp only [getItemPosition, boxesDisjoint, CARD_WIDTH, CARD_HEIGHT, CARD_GAP,
    TILE_WIDTH, TILE_HEIGHT, COLS_PER_TILE, ROWS_PER_TILE]
  push_cast
  omega

/-- Witness for C9 at tile `(0,0)`, indices `0` and `1`. -/
theorem getItemPosition_no_overlap_witness :
    (0 : Nat) < 25 ∧ (1 : Nat) < 25 ∧ (0 : Nat) ≠ 1 ∧
      boxesDisjoint (getItemPosition 0 0 0) (getItemPosition 0 0 1) :=
  ⟨by decide, by decide, by decide,
    getItemPosition_no_overlap 0 0 0 1 (by decide) (by decide) (by decide)⟩

/-! ## C6: filter fingerprint canonicality -/

/-- C6: `hashFilters` is not canonical — the two objects
`\x7b languages: ["ml","en"] \x7d` and `\x7b languages: ["en","ml"] \x7d`
denote the same filter set yet hash to different fingerprints, because
`hashFilters` is `JSON.stringify` and arrays serialise in element order. -/
theorem hashFilters_not_canonical :
    sameFilterSet [("languages", FilterValue.arr ["ml", "en"])]
        [("languages", FilterValue.arr ["en", "ml"])] ∧
      hashFilters (some [("languages", FilterValue.arr ["ml", "en"])]) ≠
        hashFilters (some [("languages", FilterValue.arr ["en", "ml"])]) := by
  constructor
  · decide
  · decide

/-! ## C7: session seed in the cache key and the upstream fetch -/

/-- C7: the session seed never reaches the tile cache key or the upstream
fetch.  For every tile request the client builds (which carries the seed as
a URL parameter), the `TileRequest` the route hands to
`adapter.fetchTile` has no `seed` (the route never reads that parameter),
the upstream page `fetchTile` computes is therefore identical for any two
session seeds, and the route-side cache key is likewise seed-independent
(as is the client key: `getTileKey` takes no seed argument at all). -/
theorem sessionSeed_never_reaches_key_or_fetch (tileX tileY : Int) (query : String)
    (filters : FilterObj) (parsedFilters : Option SearchFiltersM) (seed₁ seed₂ : Nat) :
    (routeTileRequest (routeReqOf (clientTileParams tileX tileY seed₁ query filters))
        parsedFilters).seed = none ∧
    upstreamPageOf (routeTileRequest
        (routeReqOf (clientTileParams tileX tileY seed₁ query filters)) parsedFilters) =
      upstreamPageOf (routeTileRequest
        (routeReqOf (clientTileParams tileX tileY seed₂ query filters)) parsedFilters) ∧
    routeCacheKey (clientTileParams tileX tileY seed₁ query filters).tx
        (clientTileParams tileX tileY seed₁ query filters).ty
        (clientTileParams tileX tileY seed₁ query filters).q
        (clientTileParams tileX tileY seed₁ query filters).filters =
      routeCacheKey (clientTileParams tileX tileY seed₂ query filters).tx
        (clientTileParams tileX tileY seed₂ query filters).ty
        (clientTileParams tileX tileY seed₂ query filters).q
        (clientTileParams tileX tileY seed₂ query filters).filters :=
  ⟨rfl, rfl, rfl⟩

/-! ## C8: unknown-total sentinel -/

/-- C8 counterexample: with client-side filters `collections := ["x"]` and
an empty current page sample (which therefore matches zero items after
filtering), `search` returns the upstream total unchanged — here the
misleading estimate `0` — instead of the `-1` sentinel. -/
theorem searchTotal_empty_sample_no_sentinel :
    hasClientSideFilters (some collectionsOnlyFilters) = true ∧
    applySearchFilters (some collectionsOnlyFilters) [] = [] ∧
    searchTotal (some collectionsOnlyFilters) [] 0 = 0 ∧
    (0 : Int) ≠ -1 := by
  refine ⟨by decide, by decide, by decide, by decide⟩

/-- C8 (amended): for a search with client-side filters whose *non-empty*
current page sample matches zero items after filtering, the returned total
is the `-1` unknown sentinel. -/
theorem searchTotal_unknown_sentinel (filters : Option SearchFiltersM)
    (items : List OItem) (totalResults : Int)
    (hf : hasClientSideFilters filters = true)
    (hne : items ≠ [])
    (hzero : applySearchFilters filters items = []) :
    searchTotal filters items totalResults = -1 := by
  have hlen : 0 < items.length := List.length_pos.mpr hne
  simp [searchTotal, hf, hzero, hlen]

/-- Witness for C8: one-item sample, collections filter matching nothing. -/
theorem searchTotal_unknown_sentinel_witness :
    searchTotal (some collectionsOnlyFilters) [itemWithThumb] 50 = -1 :=
  searchTotal_unknown_sentinel (some collectionsOnlyFilters) [itemWithThumb] 50
    (by decide) (by decide) (by decide)

/-! ## C10: `fetchTile` postcondition -/

theorem mem_swapAt {α : Type} {x : α} {l : List α} {i j : Nat}
    (h : x ∈ swapAt l i j) : x ∈ l := by
  unfold swapAt at h
  split at h
  case h_1 a b hgi hgj =>
    rcases List.mem_or_eq_of_mem_set h with h' | rfl
    · rcases List.mem_or_eq_of_mem_set h' with h'' | rfl
      · exact h''
      · exact List.get?_mem hgj
    · exact List.get?_mem hgi
  case h_2 => exact h

theorem mem_shuffleGo {α : Type} :
    ∀ (i : Nat) (s : Int) (l : List α) (x : α), x ∈ shuffleGo i s l → x ∈ l := by
  intro i
  induction i with
  | zero =>
    intro s l x h
    simpa [shuffleGo] using h
  | succ n ih =>
    intro s l x h
    simp only [shuffleGo] at h
    exact mem_swapAt (ih _ _ _ h)

theorem mem_shuffleWithSeed {α : Type} {x : α} {l : List α} {s : Int}
    (h : x ∈ shuffleWithSeed l s) : x ∈ l :=
  mem_shuffleGo _ _ _ _ h

/-- C10: `fetchTile` returns at most `req.limit` items, every returned item
carries a non-empty (non-whitespace) thumbnail URL, and an upstream items
fetch failure yields the empty list rather than an exception. -/
theorem fetchTile_postcondition (req : TileRequestM) (upstream : UpstreamItems)
    (resolveThumb : String → Option String) :
    (∀ msg, upstream = UpstreamItems.error msg →
      fetchTileM req upstream resolveThumb = []) ∧
    (fetchTileM req upstream resolveThumb).length ≤ req.limit ∧
    (∀ it ∈ fetchTileM req upstream resolveThumb,
      ∃ u, it.thumbnailUrl = some u ∧ u ≠ "" ∧ jsTrim u ≠ "") := by
  refine ⟨?_, ?_, ?_⟩
  · intro msg hmsg
    subst hmsg
    rfl
  · cases upstream with
    | error msg => simp [fetchTileM]
    | ok items =>
      simp only [fetchTileM]
      exact List.length_take_le _ _
  · intro it hmem
    cases upstream with
    | error msg => simp [fetchTileM] at hmem
    | ok items =>
      simp only [fetchTileM] at hmem
      have h1 := List.mem_of_mem_take hmem
      have h2 := mem_shuffleWithSeed h1
      have h3 := (List.mem_filter.mp h2).2
      unfold thumbKeep at h3
      rcases hthumb : it.thumbnailUrl with _ | u
      · rw [hthumb] at h3
        simp at h3
      · rw [hthumb] at h3
        simp only [Bool.and_eq_true, decide_eq_true_eq] at h3
        exact ⟨u, rfl, h3.1, h3.2⟩

/-- Witness for C10: the error clause at a failing upstream, the length
bound, and the thumbnail property of a concretely returned item. -/
theorem fetchTile_postcondition_witness :
    fetchTileM tileReqW (UpstreamItems.error "network down") (fun _ => none) = [] ∧
    (fetchTileM tileReqW (UpstreamItems.ok [itemWithThumb, itemNoThumb])
        (fun _ => none)).length ≤ tileReqW.limit ∧
    (∃ u, itemWithThumb.thumbnailUrl = some u ∧ u ≠ "" ∧ jsTrim u ≠ "") :=
  ⟨(fetchTile_postcondition tileReqW (UpstreamItems.error "network down")
      (fun _ => none)).1 "network down" rfl,
   (fetchTile_postcondition tileReqW (UpstreamItems.ok [itemWithThumb, itemNoThumb])
      (fun _ => none)).2.1,
   (fetchTile_postcondition tileReqW (UpstreamItems.ok [itemWithThumb, itemNoThumb])
      (fun _ => none)).2.2 itemWithThumb (by decide)⟩

/-! ## C3: stale-while-revalidate -/

theorem routeGET_stale (s : RouteState) (req : RouteReq) (ao : FetchOutcome)
    (data : TileResponseM) (ts : Nat)
    (hc : alookup s.tileCache
        (routeCacheKey req.tileX req.tileY req.q req.filtersParam) = some (data, ts))
    (h1 : ROUTE_CACHE_TTL ≤ s.now - ts) (h2 : s.now - ts < ROUTE_STALE_TTL) :
    routeGET s req ao =
      (revalidateStart s (routeCacheKey req.tileX req.tileY req.q req.filtersParam),
        RouteResp.stale data) := by
  have hfresh : ¬ (s.now - ts < ROUTE_CACHE_TTL) := by omega
  simp only [routeGET]
  rw [hc]
  simp [hfresh, h2]

theorem routeGETs_stale_pending (req : RouteReq) (ao : FetchOutcome)
    (data : TileResponseM) (ts : Nat) (key : String)
    (hkey : key = routeCacheKey req.tileX req.tileY req.q req.filtersParam) :
    ∀ (n : Nat) (s : RouteState),
      alookup s.tileCache key = some (data, ts) →
      ROUTE_CACHE_TTL ≤ s.now - ts → s.now - ts < ROUTE_STALE_TTL →
      key ∈ s.pendingRevalidations →
      routeGETs req ao n s = (s, List.replicate n (RouteResp.stale data)) := by
  intro n
  induction n with
  | zero =>
    intro s _ _ _ _
    simp [routeGETs]
  | succ m ih =>
    intro s hc h1 h2 hp
    have hstep : routeGET s req ao = (s, RouteResp.stale data) := by
      rw [routeGET_stale s req ao data ts (hkey ▸ hc) h1 h2]
      simp [revalidateStart, hkey ▸ hp]
    simp only [routeGETs, hstep]
    rw [ih s hc h1 h2 hp]
    simp [List.replicate_succ]

/-- C3: a tile `GET` whose cached entry has age in `[freshTTL, staleTTL)`
returns the cached payload immediately, and any number of consecutive
stale hits for that key while the revalidation is in flight trigger
exactly one background revalidation: every response serves the cached
payload with the `STALE` marker, and exactly one revalidation fetch for
the key is logged. -/
theorem route_stale_while_revalidate (s : RouteState) (req : RouteReq)
    (ao : FetchOutcome) (data : TileResponseM) (ts : Nat) (key : String) (n : Nat)
    (hkey : key = routeCacheKey req.tileX req.tileY req.q req.filtersParam)
    (hc : alookup s.tileCache key = some (data, ts))
    (h1 : ROUTE_CACHE_TTL ≤ s.now - ts)
    (h2 : s.now - ts < ROUTE_STALE_TTL)
    (hp : key ∉ s.pendingRevalidations) :
    (routeGETs req ao (n + 1) s).2 = List.replicate (n + 1) (RouteResp.stale data) ∧
    (routeGETs req ao (n + 1) s).1.revalFetches = s.revalFetches ++ [key] := by
  have hstart : revalidateStart s key =
      { s with pendingRevalidations := key :: s.pendingRevalidations
               revalFetches := s.revalFetches ++ [key] } := by
    simp [revalidateStart, hp]
  have hstep : routeGET s req ao =
      ({ s with pendingRevalidations := key :: s.pendingRevalidations
                revalFetches := s.revalFetches ++ [key] }, RouteResp.stale data) := by
    rw [routeGET_stale s req ao data ts (hkey ▸ hc) h1 h2, ← hkey, hstart]
  have hrest := routeGETs_stale_pending req ao data ts key hkey n
    { s with pendingRevalidations := key :: s.pendingRevalidations
             revalFetches := s.revalFetches ++ [key] }
    hc h1 h2 (by simp)
  simp only [routeGETs, hstep, hrest]
  simp [List.replicate_succ]

/-- Witness for C3: a concrete stale entry served twice while the first
hit's revalidation is pending — two STALE responses, one logged
revalidation fetch. -/
theorem route_stale_while_revalidate_witness :
    (routeGETs routeReqW (FetchOutcome.ok []) 2 staleRouteState).2 =
      List.replicate 2 (RouteResp.stale { tileX := 0, tileY := 0, items := [1] }) ∧
    (routeGETs routeReqW (FetchOutcome.ok []) 2 staleRouteState).1.revalFetches =
      staleRouteState.revalFetches ++ [routeCacheKey 0 0 none none] :=
  route_stale_while_revalidate staleRouteState routeReqW (FetchOutcome.ok [])
    { tileX := 0, tileY := 0, items := [1] } 0 (routeCacheKey 0 0 none none) 1
    (by decide) (by decide) (by decide) (by decide) (by decide)

/-! ## C1: at-most-one fetch per key, shared promise -/

/-- C1 counterexample: two concurrent `loadTile` calls for tile `(0,0)`
issued before the fetch completes.  The fetch is performed exactly once,
but the two callers do not observe the same in-flight completion promise:
the first gets the created promise (id 0) while the second hits the
`loading` cache entry and returns an immediately-resolved value with no
handle to the in-flight completion. -/
theorem loadTile_not_same_promise :
    (coordRun [.load 0 0, .load 0 0]).loadResults =
      [LoadResult.created 0, LoadResult.cachedReturn] ∧
    ¬ resultsShareOnePromise (coordRun [.load 0 0, .load 0 0]).loadResults ∧
    (coordRun [.load 0 0, .load 0 0]).fetchesStarted.length = 1 := by decide

/-! ## C2: concurrency ceiling -/

/-- C2 counterexample: six distinct-key `loadTile` calls start six fetches;
`clearTiles` resets the bookkeeping while those fetches are still running;
one more `loadTile` starts immediately, so seven fetches run concurrently —
more than the limit of six. -/
theorem clearTiles_breaks_ceiling :
    (coordRun [.load 0 0, .load 1 0, .load 2 0, .load 3 0, .load 4 0, .load 5 0,
      .clear, .load 6 0]).running.length = 7 ∧
    MAX_CONCURRENT_REQUESTS = 6 := by decide

/-! ## C4: cache hit short-circuit -/

/-- C4 counterexample: after a fetch for tile `(0,0)` completes
successfully with zero items, the cache holds a completed
(`loading = false`), unfailed (`error = none`), zero-age entry — yet a
further `loadTile` for the same key starts a second fetch instead of
returning without fetching, because the short-circuit requires
`items.length > 0`. -/
theorem loadTile_empty_success_refetched :
    alookup (coordRun [.load 0 0, .complete 0 (.ok [])]).tiles (initTileKey 0 0) =
      some { items := [], loading := false, error := none, timestamp := 0 } ∧
    (coordRun [.load 0 0, .complete 0 (.ok [])]).now = 0 ∧
    (coordRun [.load 0 0, .complete 0 (.ok []), .load 0 0]).fetchesStarted.length = 2 := by
  decide

/-- C4 (amended): a completed, non-stale cache entry with a *non-empty*
item list short-circuits `loadTile` (no fetch, unchanged state); any
completed entry with no items — failed or successful-but-empty — is
treated as a miss and refetched (here: under the concurrency limit and
with no in-flight marker, a new fetch starts). -/
theorem loadTile_cache_hit_behavior (s : CoordState) (tileX tileY : Int) :
    (∀ td, alookup s.tiles (coordKey s tileX tileY) = some td →
      td.loading = false → td.items ≠ [] → s.now - td.timestamp < CACHE_TTL →
      loadTileStep s tileX tileY =
        { s with loadResults := s.loadResults ++ [LoadResult.cachedReturn] }) ∧
    (∀ td, alookup s.tiles (coordKey s tileX tileY) = some td →
      td.loading = false → td.items = [] →
      alookup s.inFlight (coordKey s tileX tileY) = none →
      s.activeRequestCount < MAX_CONCURRENT_REQUESTS →
      (loadTileStep s tileX tileY).fetchesStarted =
        s.fetchesStarted ++ [{ id := s.nextId, key := coordKey s tileX tileY }]) := by
  constructor
  · intro td hlook hload hitems hage
    have hlook' : alookup s.tiles
        (getTileKey tileX tileY s.query (hashFilters (some s.filters))) = some td := hlook
    simp [loadTileStep, hlook', hload, hitems, hage]
  · intro td hlook hload hitems hifl hact
    have hlook' : alookup s.tiles
        (getTileKey tileX tileY s.query (hashFilters (some s.filters))) = some td := hlook
    have hifl' : alookup s.inFlight
        (getTileKey tileX tileY s.query (hashFilters (some s.filters))) = none := hifl
    simp [loadTileStep, startInst, hlook', hload, hitems, hifl', hact, coordKey]

/-- Witness for C4: the short-circuit on a non-empty completed entry and
the refetch on an empty failed entry, at concrete reachable states. -/
theorem loadTile_cache_hit_behavior_witness :
    (loadTileStep (coordRun [.load 0 0, .complete 0 (.ok [5])]) 0 0 =
      { coordRun [.load 0 0, .complete 0 (.ok [5])] with
          loadResults := (coordRun [.load 0 0, .complete 0 (.ok [5])]).loadResults ++
            [LoadResult.cachedReturn] }) ∧
    ((loadTileStep (coordRun [.load 0 0, .complete 0 (.error "boom")]) 0 0).fetchesStarted =
      (coordRun [.load 0 0, .complete 0 (.error "boom")]).fetchesStarted ++
        [{ id := (coordRun [.load 0 0, .complete 0 (.error "boom")]).nextId
           key := coordKey (coordRun [.load 0 0, .complete 0 (.error "boom")]) 0 0 }]) :=
  ⟨(loadTile_cache_hit_behavior (coordRun [.load 0 0, .complete 0 (.ok [5])]) 0 0).1
      { items := [5], loading := false, error := none, timestamp := 0 }
      (by decide) (by decide) (by decide) (by decide),
   (loadTile_cache_hit_behavior (coordRun [.load 0 0, .complete 0 (.error "boom")]) 0 0).2
      { items := [], loading := false, error := some "boom", timestamp := 0 }
      (by decide) (by decide) (by decide) (by decide) (by decide)⟩

/-! ## C2 and C5: coordinator invariants for histories without `clearTiles` -/

theorem findInst_some {l : List FetchInst} {fid : Nat} {inst : FetchInst}
    (h : findInst l fid = some inst) :
    inst.id = fid ∧ l.Perm (inst :: removeInst l fid) := by
  induction l with
  | nil => simp [findInst] at h
  | cons i rest ih =>
    by_cases hid : i.id = fid
    · simp only [findInst, hid, if_pos, Option.some.injEq] at h
      subst h
      exact ⟨hid, by simp [removeInst, hid]⟩
    · simp only [findInst, hid, if_neg, if_false] at h
      obtain ⟨h1, hperm⟩ := ih h
      refine ⟨h1, ?_⟩
      have hrw : removeInst (i :: rest) fid = i :: removeInst rest fid := by
        simp [removeInst, hid]
      rw [hrw]
      exact (hperm.cons i).trans (List.Perm.swap inst i _)

theorem drainQueue_fixed : ∀ (fuel : Nat) (s : CoordState),
    (drainQueue fuel s).promises = s.promises ∧
    (drainQueue fuel s).inFlight = s.inFlight ∧
    (drainQueue fuel s).nextId = s.nextId ∧
    (drainQueue fuel s).now = s.now ∧
    (drainQueue fuel s).query = s.query ∧
    (drainQueue fuel s).filters = s.filters := by
  intro fuel
  induction fuel with
  | zero => intro s; simp [drainQueue]
  | succ n ih =>
    intro s
    by_cases hcond : s.activeRequestCount < MAX_CONCURRENT_REQUESTS
    · rcases hq : s.requestQueue with _ | ⟨inst, rest⟩
      · simp [drainQueue, hcond, hq]
      · have := ih (startInst
          { s with requestQueue := rest
                   activeRequestCount := s.activeRequestCount + 1 } inst)
        simpa [drainQueue, hcond, hq, startInst] using this
    · simp [drainQueue, hcond]

theorem drainQueue_tiles : ∀ (fuel : Nat) (s : CoordState) (k : String),
    (∀ i ∈ s.requestQueue, i.key ≠ k) →
    alookup (drainQueue fuel s).tiles k = alookup s.tiles k := by
  intro fuel
  induction fuel with
  | zero => intro s k _; simp [drainQueue]
  | succ n ih =>
    intro s k hk
    by_cases hcond : s.activeRequestCount < MAX_CONCURRENT_REQUESTS
    · rcases hq : s.requestQueue with _ | ⟨inst, rest⟩
      · simp [drainQueue, hcond, hq]
      · have hinst : inst.key ≠ k := hk inst (by rw [hq]; exact List.mem_cons_self _ _)
        have hrest : ∀ i ∈ rest, i.key ≠ k := fun i hi =>
          hk i (by rw [hq]; exact List.mem_cons_of_mem _ hi)
        have hcall := ih (startInst
          { s with requestQueue := rest
                   activeRequestCount := s.activeRequestCount + 1 } inst) k
          (by simpa [startInst] using hrest)
        simp only [drainQueue, hcond, hq, if_pos] at hcall ⊢
        rw [hcall]
        simp [startInst, alookup_aset, hinst]
    · simp [drainQueue, hcond]

theorem drainQueue_inv : ∀ (fuel : Nat) (s : CoordState),
    CoordNoClearInv s → CoordNoClearInv (drainQueue fuel s) := by
  intro fuel
  induction fuel with
  | zero => intro s h; simpa [drainQueue] using h
  | succ n ih =>
    intro s h
    by_cases hcond : s.activeRequestCount < MAX_CONCURRENT_REQUESTS
    · rcases hq : s.requestQueue with _ | ⟨inst, rest⟩
      · simpa [drainQueue, hcond, hq] using h
      · obtain ⟨ha, hb, hc, hd, he, hf, hg, hh, hi⟩ := h
        have hcond6 : s.activeRequestCount < 6 := by
          simpa [MAX_CONCURRENT_REQUESTS] using hcond
        have hreq : (s.running ++ [inst]) ++ rest = s.running ++ s.requestQueue := by
          rw [hq, List.append_assoc, List.singleton_append]
        have hinstq : inst ∈ s.requestQueue := by
          rw [hq]; exact List.mem_cons_self _ _
        have hinv' : CoordNoClearInv (startInst
            { s with requestQueue := rest
                     activeRequestCount := s.activeRequestCount + 1 } inst) := by
          refine ⟨?_, ?_, ?_, ?_, ?_, ?_, ?_, ?_, ?_⟩ <;> simp only [startInst]
          · simp only [List.length_append, List.length_singleton]
            push_cast
            omega
          · simp only [List.length_append, List.length_singleton]
            have hlen : s.activeRequestCount = (s.running.length : Int) := ha
            omega
          · intro i hmem
            exact hc i (by rw [hq]; exact List.mem_cons_of_mem _ hmem)
          · intro i hmem
            rcases List.mem_append.mp hmem with hm | hm
            · exact hd i hm
            · rw [List.mem_singleton] at hm
              subst hm
              exact hc i hinstq
          · intro i hmem
            rcases List.mem_append.mp hmem with hm | hm
            · exact he i hm
            · rw [List.mem_singleton] at hm
              subst hm
              exact hc i hinstq
          · have hqq := hf
            rw [hq] at hqq
            simp only [List.map_cons, List.nodup_cons] at hqq
            exact hqq.2
          · intro i hmem
            have hqmem : i ∈ s.requestQueue := by
              rw [hq]; exact List.mem_cons_of_mem _ hmem
            have h1 : i.id ∉ List.map FetchInst.id s.fetchesStarted := hg i hqmem
            have h2 : inst.id ∉ List.map FetchInst.id rest := by
              have hqq := hf
              rw [hq] at hqq
              simp only [List.map_cons, List.nodup_cons] at hqq
              exact hqq.1
            simp only [List.map_append, List.map_singleton, List.mem_append,
              List.mem_singleton]
            rintro (hin | heq)
            · exact h1 hin
            · exact h2 (heq ▸ List.mem_map_of_mem FetchInst.id hmem)
          · rw [hreq]
            exact hh
          · rw [hreq]
            exact hi
        have := ih _ hinv'
        simpa [drainQueue, hcond, hq] using this
    · simpa [drainQueue, hcond] using h

theorem completeStep_inv (s : CoordState) (fid : Nat) (outcome : FetchOutcome)
    (h : CoordNoClearInv s) : CoordNoClearInv (completeStep s fid outcome) := by
  rcases hfind : findInst s.running fid with _ | inst
  · simpa [completeStep, hfind] using h
  · obtain ⟨hid, hperm⟩ := findInst_some hfind
    obtain ⟨ha, hb, hc, hd, he, hf, hg, hh, hi⟩ := h
    have hlen : s.running.length = (removeInst s.running fid).length + 1 := by
      have := hperm.length_eq
      simpa using this
    have hpermfull : (s.running ++ s.requestQueue).Perm
        (inst :: (removeInst s.running fid ++ s.requestQueue)) := by
      have h1 := hperm.append_right s.requestQueue
      simpa using h1
    have hnodupkeys :
        ((inst :: (removeInst s.running fid ++ s.requestQueue)).map FetchInst.key).Nodup :=
      (hpermfull.map FetchInst.key).nodup_iff.mp hh
    have hkeynotin : inst.key ∉
        (removeInst s.running fid ++ s.requestQueue).map FetchInst.key := by
      simp only [List.map_cons, List.nodup_cons] at hnodupkeys
      exact hnodupkeys.1
    have htailnodup :
        ((removeInst s.running fid ++ s.requestQueue).map FetchInst.key).Nodup := by
      simp only [List.map_cons, List.nodup_cons] at hnodupkeys
      exact hnodupkeys.2
    have hmemrem : ∀ i ∈ removeInst s.running fid, i ∈ s.running := fun i hi' =>
      hperm.mem_iff.mpr (List.mem_cons_of_mem _ hi')
    have hinv2 : ∀ (t : List (String × TileData)),
        CoordNoClearInv
          { s with tiles := t, running := removeInst s.running fid
                   activeRequestCount := s.activeRequestCount - 1
                   inFlight := aerase s.inFlight inst.key } := by
      intro t
      refine ⟨?_, ?_, ?_, ?_, ?_, ?_, ?_, ?_, ?_⟩
      · simp only []
        omega
      · simp only []
        omega
      · exact hc
      · intro i hm
        exact hd i (hmemrem i hm)
      · exact he
      · exact hf
      · exact hg
      · exact htailnodup
      · intro i hm
        have hik : ¬ i.key = inst.key := by
          intro heq
          exact hkeynotin (heq ▸ List.mem_map_of_mem FetchInst.key hm)
        rw [alookup_aerase_ne _ _ _ hik]
        rcases List.mem_append.mp hm with hm' | hm'
        · exact hi i (List.mem_append_left _ (hmemrem i hm'))
        · exact hi i (List.mem_append_right _ hm')
    simp only [completeStep, hfind]
    exact drainQueue_inv _ _ (hinv2 _)

theorem loadTileStep_inv (s : CoordState) (tx ty : Int) (h : CoordNoClearInv s) :
    CoordNoClearInv (loadTileStep s tx ty) := by
  obtain ⟨ha, hb, hc, hd, he, hf, hg, hh, hi⟩ := h
  simp only [loadTileStep]
  split
  · exact ⟨ha, hb, hc, hd, he, hf, hg, hh, hi⟩
  · split
    · exact ⟨ha, hb, hc, hd, he, hf, hg, hh, hi⟩
    · rename_i hhit hifl
      have hnotin : ∀ i ∈ s.running ++ s.requestQueue,
          i.key ≠ getTileKey tx ty s.query (hashFilters (some s.filters)) := by
        intro i hm heq
        have := hi i hm
        rw [heq, hifl] at this
        simp at this
      split
      · rename_i hact
        have hact6 : s.activeRequestCount < 6 := by
          simpa [MAX_CONCURRENT_REQUESTS] using hact
        refine ⟨?_, ?_, ?_, ?_, ?_, ?_, ?_, ?_, ?_⟩ <;>
          simp only [startInst]
        · simp only [List.length_append, List.length_singleton]
          push_cast
          omega
        · simp only [List.length_append, List.length_singleton]
          omega
        · intro i hm
          exact Nat.lt_succ_of_lt (hc i hm)
        · intro i hm
          rcases List.mem_append.mp hm with hm' | hm'
          · exact Nat.lt_succ_of_lt (hd i hm')
          · rw [List.mem_singleton] at hm'
            subst hm'
            exact Nat.lt_succ_self _
        · intro i hm
          rcases List.mem_append.mp hm with hm' | hm'
          · exact Nat.lt_succ_of_lt (he i hm')
          · rw [List.mem_singleton] at hm'
            subst hm'
            exact Nat.lt_succ_self _
        · exact hf
        · intro i hm
          have h1 := hg i hm
          simp only [List.map_append, List.map_singleton, List.mem_append,
            List.mem_singleton]
          rintro (hin | heq)
          · exact h1 hin
          · have := hc i hm
            omega
        · have hassoc : (s.running ++
              [{ id := s.nextId,
                 key := getTileKey tx ty s.query (hashFilters (some s.filters)) }]) ++
                s.requestQueue =
              s.running ++
                ({ id := s.nextId,
                   key := getTileKey tx ty s.query (hashFilters (some s.filters)) } ::
                  s.requestQueue) := by
            rw [List.append_assoc, List.singleton_append]
          rw [hassoc]
          have hperm := @List.perm_middle _
            { id := s.nextId,
              key := getTileKey tx ty s.query (hashFilters (some s.filters)) }
            s.running s.requestQueue
          refine ((hperm.map FetchInst.key).nodup_iff).mpr ?_
          simp only [List.map_cons, List.nodup_cons]
          constructor
          · intro hmem
            rw [List.mem_map] at hmem
            obtain ⟨i, hm, hkeq⟩ := hmem
            exact hnotin i hm hkeq
          · exact hh
        · intro i hm
          by_cases hkeq : i.key = getTileKey tx ty s.query (hashFilters (some s.filters))
          · rw [hkeq, alookup_aset]
            simp
          · rw [alookup_aset]
            have hne : ¬ getTileKey tx ty s.query (hashFilters (some s.filters)) = i.key :=
              fun hx => hkeq hx.symm
            rw [if_neg hne]
            have hassoc : (s.running ++
                [{ id := s.nextId,
                   key := getTileKey tx ty s.query (hashFilters (some s.filters)) }]) ++
                  s.requestQueue =
                s.running ++
                  ({ id := s.nextId,
                     key := getTileKey tx ty s.query (hashFilters (some s.filters)) } ::
                    s.requestQueue) := by
              rw [List.append_assoc, List.singleton_append]
            rw [hassoc] at hm
            have hm' : i ∈ s.running ++ s.requestQueue := by
              rcases List.mem_append.mp hm with h1 | h1
              · exact List.mem_append_left _ h1
              · rcases List.mem_cons.mp h1 with h2 | h2
                · subst h2
                  simp at hkeq
                · exact List.mem_append_right _ h2
            exact hi i hm'
      · rename_i hact
        refine ⟨?_, ?_, ?_, ?_, ?_, ?_, ?_, ?_, ?_⟩
        · exact ha
        · exact hb
        · intro i hm
          rcases List.mem_append.mp hm with hm' | hm'
          · exact Nat.lt_succ_of_lt (hc i hm')
          · rw [List.mem_singleton] at hm'
            subst hm'
            exact Nat.lt_succ_self _
        · intro i hm
          exact Nat.lt_succ_of_lt (hd i hm)
        · intro i hm
          exact Nat.lt_succ_of_lt (he i hm)
        · simp only [List.map_append, List.map_singleton]
          rw [List.nodup_append]
          refine ⟨hf, List.nodup_singleton _, ?_⟩
          intro x hx
          simp only [List.mem_singleton]
          rw [List.mem_map] at hx
          obtain ⟨i, hm, hkeq⟩ := hx
          have := hc i hm
          omega
        · intro i hm
          rcases List.mem_append.mp hm with hm' | hm'
          · exact hg i hm'
          · rw [List.mem_singleton] at hm'
            subst hm'
            simp only [List.mem_map]
            rintro ⟨j, hjm, hjeq⟩
            have := he j hjm
            omega
        · have hassoc : s.running ++ (s.requestQueue ++
              [{ id := s.nextId,
                 key := getTileKey tx ty s.query (hashFilters (some s.filters)) }]) =
              (s.running ++ s.requestQueue) ++
                [{ id := s.nextId,
                   key := getTileKey tx ty s.query (hashFilters (some s.filters)) }] := by
            rw [List.append_assoc]
          rw [hassoc]
          simp only [List.map_append, List.map_singleton]
          rw [List.nodup_append]
          refine ⟨by simpa using hh, List.nodup_singleton _, ?_⟩
          intro x hx
          simp only [List.mem_singleton]
          intro hxeq
          rcases List.mem_append.mp hx with hx' | hx'
          · rw [List.mem_map] at hx'
            obtain ⟨i, hm, hkeq⟩ := hx'
            exact hnotin i (List.mem_append_left _ hm) (hkeq.trans hxeq)
          · rw [List.mem_map] at hx'
            obtain ⟨i, hm, hkeq⟩ := hx'
            exact hnotin i (List.mem_append_right _ hm) (hkeq.trans hxeq)
        · intro i hm
          by_cases hkeq : i.key = getTileKey tx ty s.query (hashFilters (some s.filters))
          · rw [hkeq, alookup_aset]
            simp
          · rw [alookup_aset]
            have hne : ¬ getTileKey tx ty s.query (hashFilters (some s.filters)) = i.key :=
              fun hx => hkeq hx.symm
            rw [if_neg hne]
            have hm' : i ∈ s.running ++ s.requestQueue := by
              rcases List.mem_append.mp hm with h1 | h1
              · exact List.mem_append_left _ h1
              · rcases List.mem_append.mp h1 with h2 | h2
                · exact List.mem_append_right _ h2
                · rw [List.mem_singleton] at h2
                  subst h2
                  simp at hkeq
            exact hi i hm'

theorem coordStep_inv (s : CoordState) (e : CoordEvent) (hne : e ≠ CoordEvent.clear)
    (h : CoordNoClearInv s) : CoordNoClearInv (coordStep s e) := by
  cases e with
  | load tx ty => exact loadTileStep_inv s tx ty h
  | complete fid outcome => exact completeStep_inv s fid outcome h
  | clear => exact absurd rfl hne
  | tick d => exact h

theorem ncinv_init : CoordNoClearInv initCoordState := by
  refine ⟨rfl, by decide, ?_, ?_, ?_, ?_, ?_, ?_, ?_⟩ <;> simp [initCoordState]

theorem ncinv_run' : ∀ (es : List CoordEvent) (s : CoordState),
    (∀ e ∈ es, e ≠ CoordEvent.clear) → CoordNoClearInv s →
    CoordNoClearInv (coordRun' s es) := by
  intro es
  induction es with
  | nil => intro s _ h; exact h
  | cons e rest ih =>
    intro s hne h
    exact ih _ (fun x hx => hne x (List.mem_cons_of_mem _ hx))
      (coordStep_inv s e (hne e (List.mem_cons_self _ _)) h)

theorem ncinv_run (es : List CoordEvent) (h : NoClear es) :
    CoordNoClearInv (coordRun es) :=
  ncinv_run' es initCoordState h ncinv_init

/-- C2 (amended): in every history without `clearTiles`, the active-request
counter equals the number of concurrently running fetches and never exceeds
the limit of 6, and no queued request has had its fetch started.
(`clearTiles` resets the counter while running fetches continue, so with it
the number of running fetches can exceed the limit — see the
counterexample.) -/
theorem concurrency_ceiling_no_clear (es : List CoordEvent) (h : NoClear es) :
    (coordRun es).activeRequestCount = ((coordRun es).running.length : Int) ∧
    (coordRun es).running.length ≤ 6 ∧
    (∀ i ∈ (coordRun es).requestQueue,
      i.id ∉ (coordRun es).fetchesStarted.map FetchInst.id) := by
  obtain ⟨ha, hb, _, _, _, _, hg, _, _⟩ := ncinv_run es h
  exact ⟨ha, hb, hg⟩

/-- Witness for C2 at a concrete clear-free schedule. -/
theorem concurrency_ceiling_no_clear_witness :
    (coordRun [.load 0 0, .load 1 0]).activeRequestCount =
      ((coordRun [.load 0 0, .load 1 0]).running.length : Int) ∧
    (coordRun [.load 0 0, .load 1 0]).running.length ≤ 6 :=
  ⟨(concurrency_ceiling_no_clear [.load 0 0, .load 1 0] (by decide)).1,
   (concurrency_ceiling_no_clear [.load 0 0, .load 1 0] (by decide)).2.1⟩

/-- C5: in every history without `clearTiles`, when a running fetch settles
with a failure, the `loadTile` completion step leaves the cache entry for
its key in the terminal state `\x7b items: [], loading: false,
error: message \x7d` and resolves (never rejects) the promise `loadTile`
returned for that key. -/
theorem loadTile_failure_resolves (es : List CoordEvent) (fid : Nat) (msg : String)
    (inst : FetchInst)
    (hnc : NoClear es)
    (hfind : findInst (coordRun es).running fid = some inst) :
    alookup (completeStep (coordRun es) fid (FetchOutcome.error msg)).tiles inst.key =
      some { items := [], loading := false, error := some msg
             timestamp := (coordRun es).now } ∧
    alookup (completeStep (coordRun es) fid (FetchOutcome.error msg)).promises inst.id =
      some PromiseStatus.resolved := by
  obtain ⟨ha, hb, hc, hd, he, hf, hg, hh, hi⟩ := ncinv_run es hnc
  obtain ⟨hid, hperm⟩ := findInst_some hfind
  have hpermfull : ((coordRun es).running ++ (coordRun es).requestQueue).Perm
      (inst :: (removeInst (coordRun es).running fid ++ (coordRun es).requestQueue)) := by
    have h1 := hperm.append_right (coordRun es).requestQueue
    simpa using h1
  have hkeynotin : inst.key ∉
      (removeInst (coordRun es).running fid ++
        (coordRun es).requestQueue).map FetchInst.key := by
    have hnk := (hpermfull.map FetchInst.key).nodup_iff.mp hh
    simp only [List.map_cons, List.nodup_cons] at hnk
    exact hnk.1
  have hqkeys : ∀ i ∈ (coordRun es).requestQueue, i.key ≠ inst.key := by
    intro i hm heq
    exact hkeynotin (heq ▸ List.mem_map_of_mem FetchInst.key
      (List.mem_append_right _ hm))
  simp only [completeStep, hfind, processQueue]
  constructor
  · rw [drainQueue_tiles _ _ _ (by intro i hm; exact hqkeys i hm)]
    rw [alookup_aset]
    simp
  · rw [alookup_aset]
    simp

/-- Witness for C5: one load, its fetch fails with "boom". -/
theorem loadTile_failure_resolves_witness :
    alookup (completeStep (coordRun [.load 0 0]) 0 (FetchOutcome.error "boom")).tiles
        (initTileKey 0 0) =
      some { items := [], loading := false, error := some "boom"
             timestamp := (coordRun [.load 0 0]).now } ∧
    alookup (completeStep (coordRun [.load 0 0]) 0
        (FetchOutcome.error "boom")).promises 0 =
      some PromiseStatus.resolved :=
  loadTile_failure_resolves [.load 0 0] 0 "boom" { id := 0, key := initTileKey 0 0 }
    (by decide) (by decide)

theorem loadTileStep_loadonly (s : CoordState) (tx ty : Int)
    (h : CoordLoadOnlyInv s) :
    CoordLoadOnlyInv (loadTileStep s tx ty) ∧
    (∀ k, k ∈ createdKeys (loadTileStep s tx ty) ↔
      (k ∈ createdKeys s ∨ k = coordKey s tx ty)) ∧
    (loadTileStep s tx ty).query = s.query ∧
    (loadTileStep s tx ty).filters = s.filters := by
  obtain ⟨h1, h2, h3, h4⟩ := h
  simp only [loadTileStep]
  split
  · rename_i hhit
    refine ⟨⟨h1, h2, h3, h4⟩, ?_, rfl, rfl⟩
    intro k
    constructor
    · intro hk
      exact Or.inl hk
    · rintro (hk | rfl)
      · exact hk
      · rcases hlook : alookup s.tiles
            (getTileKey tx ty s.query (hashFilters (some s.filters))) with _ | td
        · rw [hlook] at hhit
          simp at hhit
        · exact h4 _ td hlook
  · split
    · rename_i hhit pid hifl
      refine ⟨⟨h1, h2, h3, h4⟩, ?_, rfl, rfl⟩
      intro k
      constructor
      · intro hk
        exact Or.inl hk
      · rintro (hk | rfl)
        · exact hk
        · refine (h3 _).mp ?_
          show (alookup s.inFlight
            (getTileKey tx ty s.query (hashFilters (some s.filters)))).isSome = true
          rw [hifl]
          rfl
    · rename_i hhit hifl
      have hnotc : getTileKey tx ty s.query (hashFilters (some s.filters)) ∉
          createdKeys s := by
        intro hk
        have hsome := (h3 _).mpr hk
        rw [hifl] at hsome
        simp at hsome
      have hmemiff : ∀ (k : String),
          ((alookup (aset s.inFlight
              (getTileKey tx ty s.query (hashFilters (some s.filters)))
              s.nextId) k).isSome = true) ↔
            (k ∈ createdKeys s ∨
              k = getTileKey tx ty s.query (hashFilters (some s.filters))) := by
        intro k
        rw [alookup_aset]
        by_cases hk : getTileKey tx ty s.query (hashFilters (some s.filters)) = k
        · rw [if_pos hk]
          simp only [Option.isSome_some, true_iff]
          exact Or.inr hk.symm
        · rw [if_neg hk]
          rw [h3 k]
          constructor
          · intro hm
            exact Or.inl hm
          · rintro (hm | hm)
            · exact hm
            · exact absurd hm.symm hk
      split
      · rename_i hact
        refine ⟨⟨?_, ?_, ?_, ?_⟩, ?_, rfl, rfl⟩
        · simp only [createdKeys, startInst, List.map_append, List.map_cons,
            List.map_nil]
          rw [List.nodup_append]
          refine ⟨h1, List.nodup_singleton _, ?_⟩
          intro x hx
          simp only [List.mem_singleton]
          intro hxeq
          rw [hxeq] at hx
          exact hnotc hx
        · simp only [startInst]
          exact h2.append (List.Sublist.refl _)
        · intro k
          simp only [startInst, createdKeys, List.map_append, List.map_cons,
            List.map_nil, List.mem_append, List.mem_singleton]
          exact hmemiff k
        · intro k td
          simp only [startInst, createdKeys, List.map_append, List.map_cons,
            List.map_nil, List.mem_append, List.mem_singleton]
          rw [alookup_aset]
          by_cases hk : getTileKey tx ty s.query (hashFilters (some s.filters)) = k
          · rw [if_pos hk]
            intro _
            exact Or.inr hk.symm
          · rw [if_neg hk]
            intro hlook
            exact Or.inl (h4 k td hlook)
        · intro k
          simp only [startInst, createdKeys, coordKey, List.map_append,
            List.map_cons, List.map_nil, List.mem_append, List.mem_singleton]
      · rename_i hact
        refine ⟨⟨?_, ?_, ?_, ?_⟩, ?_, rfl, rfl⟩
        · simp only [createdKeys, List.map_append, List.map_cons, List.map_nil]
          rw [List.nodup_append]
          refine ⟨h1, List.nodup_singleton _, ?_⟩
          intro x hx
          simp only [List.mem_singleton]
          intro hxeq
          rw [hxeq] at hx
          exact hnotc hx
        · exact h2.trans (List.sublist_append_left _ _)
        · intro k
          simp only [createdKeys, List.map_append, List.map_cons, List.map_nil,
            List.mem_append, List.mem_singleton]
          exact hmemiff k
        · intro k td
          simp only [createdKeys, List.map_append, List.map_cons, List.map_nil,
            List.mem_append, List.mem_singleton]
          intro hlook
          exact Or.inl (h4 k td hlook)
        · intro k
          simp only [createdKeys, coordKey, List.map_append, List.map_cons,
            List.map_nil, List.mem_append, List.mem_singleton]

theorem loadonly_run : ∀ (ps : List (Int × Int)) (s : CoordState),
    CoordLoadOnlyInv s →
    CoordLoadOnlyInv (coordRun' s (loadsOf ps)) ∧
    (∀ k, k ∈ createdKeys (coordRun' s (loadsOf ps)) ↔
      (k ∈ createdKeys s ∨ k ∈ ps.map (fun p => coordKey s p.1 p.2))) := by
  intro ps
  induction ps with
  | nil =>
    intro s h
    refine ⟨h, ?_⟩
    intro k
    simp [loadsOf, coordRun']
  | cons p rest ih =>
    intro s h
    obtain ⟨hinv', hmem', hq, hfil⟩ := loadTileStep_loadonly s p.1 p.2 h
    obtain ⟨hinvf, hmemf⟩ := ih (loadTileStep s p.1 p.2) hinv'
    have hfun : (fun q : Int × Int => coordKey (loadTileStep s p.1 p.2) q.1 q.2) =
        (fun q : Int × Int => coordKey s q.1 q.2) := by
      funext q
      simp only [coordKey, hq, hfil]
    have hrun : coordRun' s (loadsOf (p :: rest)) =
        coordRun' (loadTileStep s p.1 p.2) (loadsOf rest) := rfl
    refine ⟨by rw [hrun]; exact hinvf, ?_⟩
    intro k
    rw [hrun, hmemf k, hmem' k, List.map_cons]
    rw [hfun]
    simp only [List.mem_cons]
    tauto

/-- C1 (amended): issuing any schedule of concurrent `loadTile` calls (no
fetch yet completed), each cache key has at most one fetch instance created
and at most one network fetch started — `fetchFn` is never duplicated for a
key — and an instance is created for exactly the requested keys.  (The
callers do *not* all observe the same in-flight promise: see the
counterexample, where a caller arriving after the fetch started returns an
immediately-resolved value without the shared handle.) -/
theorem loadTile_at_most_one_fetch (ps : List (Int × Int)) (k : String) :
    ((createdKeys (coordRun (loadsOf ps))).count k ≤ 1) ∧
    ((startedKeys (coordRun (loadsOf ps))).count k ≤ 1) ∧
    (k ∈ createdKeys (coordRun (loadsOf ps)) ↔
      k ∈ ps.map (fun p => initTileKey p.1 p.2)) := by
  have hinit : CoordLoadOnlyInv initCoordState := by
    refine ⟨by simp [createdKeys, initCoordState], by simp [initCoordState], ?_, ?_⟩
    · intro k'
      simp [initCoordState, alookup, createdKeys]
    · intro k' td hlook
      simp [initCoordState, alookup] at hlook
  obtain ⟨⟨hnodup, hsub, hmk, htl⟩, hmem⟩ := loadonly_run ps initCoordState hinit
  have hcount1 : (createdKeys (coordRun (loadsOf ps))).count k ≤ 1 :=
    List.nodup_iff_count_le_one.mp hnodup k
  have hcount2 : (startedKeys (coordRun (loadsOf ps))).count k ≤
      (createdKeys (coordRun (loadsOf ps))).count k :=
    (hsub.map FetchInst.key).count_le k
  refine ⟨hcount1, le_trans hcount2 hcount1, ?_⟩
  simp only [coordRun]
  rw [hmem k]
  have hempty : createdKeys initCoordState = [] := rfl
  rw [hempty]
  simp only [List.not_mem_nil, false_or]
  rfl
